import Mathlib

/-!
Verification of the OIDN device/engine execution layer against its source.

The embedding follows the source files:
* `src/core/cuda/cuda_device.h` — `basicCUDAKernel` (guarded per-item launch),
  `groupCUDAKernel` (unguarded), `CUDADevice::runKernelAsync` (both overloads),
  `CUDADevice::suggestWorkGroupSize`, `checkError`;
* `src/include/OpenImageDenoise/oidn.hpp` — `Error`, `BufferRef` / `FilterRef` /
  `DeviceRef` copy/move/destroy semantics, `DeviceRef::getError`;
* `src/devices/cpu/bnns/bnns_pool.h`, `src/devices/cpu/cpu_input_process.h` —
  Op variants with `finalize` / `submit`.

Machine integers in the kernel-launch arithmetic are modelled as `Nat`; the
grid/group coordinates involved are small device extents with no overflow
semantics relied upon by the source.
-/

namespace Oidn

/-! ## Work-dimension model and basic (guarded) kernels

`basicCUDAKernel` from `src/core/cuda/cuda_device.h` receives the global size
and the thread's global coordinate; it calls the body `f` only when the
coordinate is strictly below the range in every dimension, otherwise it does
nothing.  The body is modelled as a state transformer `f : coord → σ → σ`, and
"performs no work" as returning the state unchanged.  The thread coordinate
(`WorkItem::getId`, computed from the block/thread indices by code outside the
sample) is an arbitrary natural number per dimension; `getRange` is the
corresponding component of `globalSize`. -/

def basicCUDAKernel1 {σ : Type} (globalSize : Nat) (f : Nat → σ → σ)
    (id : Nat) (s : σ) : σ :=
  if id < globalSize then f id s else s

def basicCUDAKernel2 {σ : Type} (globalSize : Nat × Nat) (f : Nat × Nat → σ → σ)
    (id : Nat × Nat) (s : σ) : σ :=
  if id.1 < globalSize.1 ∧ id.2 < globalSize.2 then f id s else s

def basicCUDAKernel3 {σ : Type} (globalSize : Nat × Nat × Nat)
    (f : Nat × Nat × Nat → σ → σ) (id : Nat × Nat × Nat) (s : σ) : σ :=
  if id.1 < globalSize.1 ∧ id.2.1 < globalSize.2.1 ∧ id.2.2 < globalSize.2.2 then
    f id s
  else s

/-! ## Group-size heuristic and grid partition

`CUDADevice::suggestWorkGroupSize` returns fixed constants ignoring the global
size: 256 (1D), {16, 16} (2D), {1, 16, 16} (3D). -/

def suggestWorkGroupSize1 (globalSize : Nat) : Nat := 256

def suggestWorkGroupSize2 (globalSize : Nat × Nat) : Nat × Nat := (16, 16)

def suggestWorkGroupSize3 (globalSize : Nat × Nat × Nat) : Nat × Nat × Nat :=
  (1, 16, 16)

/-- Modelled from the spec: the `ceil_div` helper used by
`CUDADevice::runKernelAsync` lives in the repository's common math header,
which is not part of the sample; the spec describes the partition as
"covering the extent via ceiling-division". -/
def ceil_div (a b : Nat) : Nat := (a + b - 1) / b

/-- `numGroups = ceil_div(globalSize, groupSize)` as computed by the 1D
`runKernelAsync` with the suggested group size. -/
def numGroups1 (globalSize : Nat) : Nat :=
  ceil_div globalSize (suggestWorkGroupSize1 globalSize)

def numGroups2 (globalSize : Nat × Nat) : Nat × Nat :=
  (ceil_div globalSize.1 (suggestWorkGroupSize2 globalSize).1,
   ceil_div globalSize.2 (suggestWorkGroupSize2 globalSize).2)

def numGroups3 (globalSize : Nat × Nat × Nat) : Nat × Nat × Nat :=
  (ceil_div globalSize.1 (suggestWorkGroupSize3 globalSize).1,
   ceil_div globalSize.2.1 (suggestWorkGroupSize3 globalSize).2.1,
   ceil_div globalSize.2.2 (suggestWorkGroupSize3 globalSize).2.2)

/-- One dimension of the launch covers the extent exactly once: the group
count over-provisions (`extent ≤ numGroups * groupSize`), and each coordinate
below the extent arises from exactly one (group, local) pair of the launch,
where the global coordinate of a launched thread is
`group * groupSize + local` (modelled from the spec's work-item model; the
block/thread index decomposition itself is outside the sample). -/
def dimCovered (extent groupSize : Nat) : Prop :=
  extent ≤ ceil_div extent groupSize * groupSize ∧
  ∀ id, id < extent →
    ∃! p : Nat × Nat,
      (p.1 < ceil_div extent groupSize ∧ p.2 < groupSize) ∧
      p.1 * groupSize + p.2 = id

theorem ceil_div_cover (g gs : Nat) (h : 0 < gs) : g ≤ ceil_div g gs * gs := by
  have h1 := Nat.div_add_mod (g + gs - 1) gs
  have h2 : (g + gs - 1) % gs < gs := Nat.mod_lt _ h
  unfold ceil_div
  rw [Nat.mul_comm]
  omega

theorem dimCovered_of_pos (g gs : Nat) (h : 0 < gs) : dimCovered g gs := by
  refine ⟨ceil_div_cover g gs h, ?_⟩
  intro id hid
  have hcover : id < ceil_div g gs * gs :=
    Nat.lt_of_lt_of_le hid (ceil_div_cover g gs h)
  refine ⟨(id / gs, id % gs), ⟨⟨?_, Nat.mod_lt _ h⟩, ?_⟩, ?_⟩
  · exact Nat.div_lt_of_lt_mul (Nat.mul_comm (ceil_div g gs) gs ▸ hcover)
  · show id / gs * gs + id % gs = id
    rw [Nat.mul_comm]
    exact Nat.div_add_mod id gs
  · rintro ⟨q, r⟩ ⟨⟨hq, hr⟩, hsum⟩
    have hdiv : id / gs = q := by
      rw [← hsum, Nat.mul_comm, Nat.mul_add_div h, Nat.div_eq_of_lt hr]
      omega
    have hmod : id % gs = r := by
      rw [← hsum, Nat.mul_comm, Nat.mul_add_mod, Nat.mod_eq_of_lt hr]
    simp [Prod.ext_iff, hdiv, hmod]

/-! ## Error surface

`enum class Error` from `src/include/OpenImageDenoise/oidn.hpp`, lines
348–357: exactly seven enumerators. -/

inductive Error where
  | None
  | Unknown
  | InvalidArgument
  | InvalidOperation
  | OutOfMemory
  | UnsupportedHardware
  | Cancelled
deriving DecidableEq, Repr

/-- Modelled from the spec: the per-Device error slot behind
`oidnGetDeviceError` (its implementation is not part of the sample; only the
`DeviceRef::getError` wrappers are).  The slot holds the first unretrieved
error together with its message; "a new error overwrites the slot only if the
previous one was already retrieved or none was pending", and "retrieval
returns and clears it". -/
structure ErrorState where
  slot : Option (Error × String)
deriving DecidableEq, Repr

/-- Modelled from the spec: recording an error keeps the pending one — later
errors are dropped until the pending one is retrieved. -/
def setErrorState (s : ErrorState) (code : Error) (message : String) :
    ErrorState :=
  match s.slot with
  | some _ => s
  | none => ⟨some (code, message)⟩

/-- Modelled from the spec: retrieval returns the first unretrieved error and
its message and clears the slot; with no pending error it returns `None`. -/
def getErrorState (s : ErrorState) : (Error × Option String) × ErrorState :=
  match s.slot with
  | some (code, message) => ((code, some message), ⟨none⟩)
  | none => ((Error.None, none), s)

/-- Modelled from the spec: `oidnGetDeviceError` accepts a null device handle
as well; in that case it answers from the process-global slot that recorded
why device construction failed.  The result is the retrieved code and
message, with the updated device (when non-null) and global slot. -/
def oidnGetDeviceError (device : Option ErrorState) (globalSlot : ErrorState) :
    (Error × Option String) × Option ErrorState × ErrorState :=
  match device with
  | some d =>
    let r := getErrorState d
    (r.1, some r.2, globalSlot)
  | none =>
    let r := getErrorState globalSlot
    (r.1, none, r.2)

/-- `DeviceRef::getError()` (oidn.hpp line 452): code-only overload, passes
a null message pointer through to `oidnGetDeviceError`. -/
def DeviceRef.getError (device : Option ErrorState) (globalSlot : ErrorState) :
    Error × Option ErrorState × ErrorState :=
  let r := oidnGetDeviceError device globalSlot
  (r.1.1, r.2)

/-- `DeviceRef::getError(outMessage)` (oidn.hpp line 459): overload that also
yields the human-readable message. -/
def DeviceRef.getErrorWithMessage (device : Option ErrorState)
    (globalSlot : ErrorState) :
    (Error × Option String) × Option ErrorState × ErrorState :=
  oidnGetDeviceError device globalSlot

/-! ## Backend dispatch failure (CUDA) -/

/-- CUDA runtime error status returned by `cudaGetLastError` after a launch;
`memoryAllocation` is `cudaErrorMemoryAllocation` (out-of-resources) and
`other` collapses every remaining failure code. -/
inductive CudaError where
  | success
  | memoryAllocation
  | other
deriving DecidableEq, Repr

/-- Modelled from the spec: `checkError(cudaError_t)` is declared in
`src/core/cuda/cuda_device.h` line 48 but implemented outside the sample; the
spec says a backend dispatch failure "is detected at enqueue …" and
"converted into a Device-level error of kind Unknown or OutOfMemory; it does
not throw past the Engine boundary — it is recorded and must be retrieved via
the Device's error accessor". -/
def checkError (e : CudaError) (device : ErrorState) : ErrorState :=
  match e with
  | CudaError.success => device
  | CudaError.memoryAllocation =>
    setErrorState device Error.OutOfMemory "out of memory"
  | CudaError.other => setErrorState device Error.Unknown "unknown error"

/-- The error-status part of `CUDADevice::runKernelAsync`: immediately after
the launch it runs `checkError(cudaGetLastError())`, so the launch's error
status is folded into the device error state at enqueue time. -/
def runKernelAsyncErrorStatus (launchStatus : CudaError)
    (device : ErrorState) : ErrorState :=
  checkError launchStatus device

/-! ## Unguarded work-group kernel

`groupCUDAKernel` (cuda_device.h lines 41–45) calls the body unconditionally;
the explicit-partition `runKernelAsync(numGroups, groupSize, f)` overload
(lines 90–95) launches it on the given grid with no range check anywhere. -/

def groupCUDAKernel {σ : Type} (f : Nat × Nat → σ → σ) (item : Nat × Nat)
    (s : σ) : σ :=
  f item s

/-- The set of work items of an explicit `numGroups` × `groupSize` launch
(1D): every (group, local) pair of the grid, each of which runs
`groupCUDAKernel` (hence the body) unconditionally. -/
def groupLaunchItems (numGroups groupSize : Nat) : List (Nat × Nat) :=
  (List.range numGroups).flatMap fun g =>
    (List.range groupSize).map fun l => (g, l)

/-- Executing the explicit-partition launch threads the state through the
body at every launched item. -/
def runGroupKernelLaunch {σ : Type} (numGroups groupSize : Nat)
    (f : Nat × Nat → σ → σ) (s : σ) : σ :=
  (groupLaunchItems numGroups groupSize).foldl
    (fun acc item => groupCUDAKernel f item acc) s

/-! ## Reference-counted handle wrappers

`BufferRef` / `FilterRef` / `DeviceRef` in oidn.hpp share the same
member-for-member structure; the model below covers all three.  A wrapper is
its handle, `Option Nat` with `none` for `nullptr`; the global reference
counts are a function from handles to counts, and each operation also reports
the exact list of retain/release calls it makes. -/

abbrev Handle := Nat

abbrev RefCounts := Handle → Nat

inductive RCEvent where
  | retain (h : Handle)
  | release (h : Handle)
deriving DecidableEq, Repr

/-- `oidnRetainBuffer` / `oidnRetainFilter` / `oidnRetainDevice`: increments
the handle's reference count. -/
def oidnRetain (c : RefCounts) (h : Handle) : RefCounts :=
  fun x => if x = h then c x + 1 else c x

/-- `oidnReleaseBuffer` / `oidnReleaseFilter` / `oidnReleaseDevice`:
decrements the handle's reference count. -/
def oidnRelease (c : RefCounts) (h : Handle) : RefCounts :=
  fun x => if x = h then c x - 1 else c x

/-- Copy constructor (oidn.hpp lines 56–60 / 372–376): takes the source's
handle and retains it when non-null. -/
def copyCtor (other : Option Handle) (c : RefCounts) :
    Option Handle × RefCounts × List RCEvent :=
  match other with
  | some h => (some h, oidnRetain c h, [RCEvent.retain h])
  | none => (none, c, [])

/-- Move constructor (oidn.hpp lines 62–65 / 378–381): steals the handle and
nulls the source; no retain, no release.  Returns (new wrapper's handle,
moved-from wrapper's handle, counts, events). -/
def moveCtor (other : Option Handle) (c : RefCounts) :
    (Option Handle × Option Handle) × RefCounts × List RCEvent :=
  ((other, none), c, [])

/-- Destructor (oidn.hpp lines 96–100 / 412–416): releases the handle when
non-null. -/
def destructor (h : Option Handle) (c : RefCounts) :
    RefCounts × List RCEvent :=
  match h with
  | some hh => (oidnRelease c hh, [RCEvent.release hh])
  | none => (c, [])

/-- Copy assignment (oidn.hpp lines 67–78 / 383–394): when the source is a
different object, retain the source's handle, release the old handle, then
adopt the source's handle; self-assignment is a no-op. -/
def copyAssign (self other : Option Handle) (isSelf : Bool) (c : RefCounts) :
    Option Handle × RefCounts × List RCEvent :=
  if isSelf then (self, c, [])
  else
    let step1 : RefCounts × List RCEvent :=
      match other with
      | some h => (oidnRetain c h, [RCEvent.retain h])
      | none => (c, [])
    let step2 : RefCounts × List RCEvent :=
      match self with
      | some h => (oidnRelease step1.1 h, [RCEvent.release h])
      | none => (step1.1, [])
    (other, step2.1, step1.2 ++ step2.2)

/-- Move assignment (oidn.hpp lines 80–84 / 396–400): swaps the two handles;
no retain, no release. -/
def moveAssign (self other : Option Handle) : Option Handle × Option Handle :=
  (other, self)

/-- A world of live wrappers over shared reference counts. -/
structure RefWorld where
  wrappers : List (Option Handle)
  counts : RefCounts

/-- Number of live wrappers currently owning handle `h`. -/
def liveOwners (w : RefWorld) (h : Handle) : Nat :=
  w.wrappers.countP fun x => x = some h

/-- The balance invariant: each handle's reference count equals the number of
live wrappers owning it. -/
def RCInv (w : RefWorld) : Prop :=
  ∀ h, w.counts h = liveOwners w h

inductive WrapperOp where
  | copy (i : Nat)
  | move (i : Nat)
  | destroy (i : Nat)
deriving DecidableEq, Repr

/-- One wrapper-lifetime step: copy-construct a new wrapper from wrapper `i`,
move-construct from wrapper `i` (nulling it), or destroy wrapper `i`.
Indices out of range do nothing. -/
def stepW (w : RefWorld) (op : WrapperOp) : RefWorld :=
  match op with
  | WrapperOp.copy i =>
    match w.wrappers.get? i with
    | some hd =>
      let r := copyCtor hd w.counts
      ⟨w.wrappers ++ [r.1], r.2.1⟩
    | none => w
  | WrapperOp.move i =>
    match w.wrappers.get? i with
    | some hd => ⟨(w.wrappers.set i none) ++ [hd], w.counts⟩
    | none => w
  | WrapperOp.destroy i =>
    match w.wrappers.get? i with
    | some hd => ⟨w.wrappers.eraseIdx i, (destructor hd w.counts).1⟩
    | none => w

/-! ## Op catalog -/

/-- The fixed catalog of Op variants; one constructor per factory method of
`CUDADevice` (cuda_device.h lines 57–64). -/
inductive OpKind where
  | InputProcess
  | Conv
  | ConcatConv
  | Pool
  | Upsample
  | Autoexposure
  | OutputProcess
  | ImageCopy
deriving DecidableEq, Repr

/-- Modelled from the spec: the descriptor "capturing shape/stride/parameter
metadata" an Op is constructed from (the concrete `ConvDesc`, `PoolDesc`, …
types are outside the sample). -/
structure OpDesc where
  shapes : List Nat
  strides : List Nat
  params : List Int
deriving DecidableEq, Repr

/-- Op lifecycle states from the spec's data model: Constructed → Finalized →
Submitted. -/
inductive OpPhase where
  | Constructed
  | Finalized
  | Submitted
deriving DecidableEq, Repr

/-- Modelled from the spec: an Op instance holds its immutable descriptor and
its lifecycle phase (the op class bodies, e.g. `BNNSPool` / `CPUInputProcess`
implementations, are outside the sample; their headers declare `finalize` and
`submit` overrides). -/
structure Op where
  kind : OpKind
  desc : OpDesc
  phase : OpPhase
deriving DecidableEq, Repr

/-- `finalize()` capability: resolves shapes/scratch, moving the Op to
Finalized; the descriptor is untouched. -/
def Op.finalize (op : Op) : Op :=
  { op with phase := OpPhase.Finalized }

/-- `submit()` capability: enqueues the Op's work, moving it to Submitted;
the descriptor is untouched. -/
def Op.submit (op : Op) : Op :=
  { op with phase := OpPhase.Submitted }

/-- Modelled from the spec: the Device factory (one `new…` method per Op
variant on `CUDADevice`, cuda_device.h lines 57–64) constructs the variant's
Op from its descriptor, in the Constructed phase. -/
def Device.newOp (kind : OpKind) (desc : OpDesc) : Op :=
  match kind with
  | OpKind.InputProcess => ⟨OpKind.InputProcess, desc, OpPhase.Constructed⟩
  | OpKind.Conv => ⟨OpKind.Conv, desc, OpPhase.Constructed⟩
  | OpKind.ConcatConv => ⟨OpKind.ConcatConv, desc, OpPhase.Constructed⟩
  | OpKind.Pool => ⟨OpKind.Pool, desc, OpPhase.Constructed⟩
  | OpKind.Upsample => ⟨OpKind.Upsample, desc, OpPhase.Constructed⟩
  | OpKind.Autoexposure => ⟨OpKind.Autoexposure, desc, OpPhase.Constructed⟩
  | OpKind.OutputProcess => ⟨OpKind.OutputProcess, desc, OpPhase.Constructed⟩
  | OpKind.ImageCopy => ⟨OpKind.ImageCopy, desc, OpPhase.Constructed⟩

/-! ## Helper lemmas -/

theorem countP_set_of_get? {α : Type} (p : α → Bool) (l : List α) (i : Nat)
    (a b : α) (h : l.get? i = some a) :
    (l.set i b).countP p + (if p a then 1 else 0) =
      l.countP p + (if p b then 1 else 0) := by
  induction l generalizing i with
  | nil => simp at h
  | cons x xs ih =>
    cases i with
    | zero =>
      simp only [List.get?] at h
      cases h
      simp [List.set, List.countP_cons]
      omega
    | succ n =>
      simp only [List.get?] at h
      simp only [List.set, List.countP_cons]
      have := ih n h
      omega

theorem countP_eraseIdx_of_get? {α : Type} (p : α → Bool) (l : List α)
    (i : Nat) (a : α) (h : l.get? i = some a) :
    (l.eraseIdx i).countP p + (if p a then 1 else 0) = l.countP p := by
  induction l generalizing i with
  | nil => simp at h
  | cons x xs ih =>
    cases i with
    | zero =>
      simp only [List.get?] at h
      cases h
      simp [List.eraseIdx, List.countP_cons]
    | succ n =>
      simp only [List.get?] at h
      simp only [List.eraseIdx, List.countP_cons]
      have := ih n h
      omega

theorem rcinv_step (w : RefWorld) (op : WrapperOp) (hw : RCInv w) :
    RCInv (stepW w op) := by
  cases op with
  | copy i =>
    cases hg : w.wrappers.get? i with
    | none =>
      intro h
      simp only [stepW, hg]
      exact hw h
    | some hd =>
      cases hd with
      | none =>
        intro h
        have hthis := hw h
        simp only [liveOwners] at hthis ⊢
        simp only [stepW, hg, copyCtor]
        simp [List.countP_append, List.countP_cons, hthis]
      | some h0 =>
        intro h
        have hthis := hw h
        simp only [liveOwners] at hthis ⊢
        simp only [stepW, hg, copyCtor, oidnRetain]
        by_cases hh : h = h0
        · subst hh
          simp [List.countP_append, List.countP_cons, hthis]
        · simp [List.countP_append, List.countP_cons, hthis, hh, Ne.symm hh]
  | move i =>
    cases hg : w.wrappers.get? i with
    | none =>
      intro h
      simp only [stepW, hg]
      exact hw h
    | some hd =>
      intro h
      have hthis := hw h
      simp only [liveOwners] at hthis ⊢
      simp only [stepW, hg]
      have hkey := countP_set_of_get? (fun x => decide (x = some h))
        w.wrappers i hd (none : Option Handle) hg
      simp only [List.countP_append, List.countP_cons, List.countP_nil,
        decide_eq_true_eq, reduceCtorEq, if_false] at hkey ⊢
      omega
  | destroy i =>
    cases hg : w.wrappers.get? i with
    | none =>
      intro h
      simp only [stepW, hg]
      exact hw h
    | some hd =>
      cases hd with
      | none =>
        intro h
        have hthis := hw h
        simp only [liveOwners] at hthis ⊢
        simp only [stepW, hg, destructor]
        have hkey := countP_eraseIdx_of_get? (fun x => decide (x = some h))
          w.wrappers i (none : Option Handle) hg
        simp only [decide_eq_true_eq, reduceCtorEq, if_false] at hkey
        omega
      | some h0 =>
        intro h
        have hthis := hw h
        simp only [liveOwners] at hthis ⊢
        simp only [stepW, hg, destructor, oidnRelease]
        have hkey := countP_eraseIdx_of_get? (fun x => decide (x = some h))
          w.wrappers i (some h0) hg
        simp only [decide_eq_true_eq, Option.some.injEq] at hkey
        by_cases hh : h = h0
        · subst hh
          rw [if_pos rfl] at hkey
          rw [if_pos rfl]
          omega
        · rw [if_neg hh]
          rw [if_neg (Ne.symm hh)] at hkey
          omega

theorem rcinv_singleton (h0 : Handle) :
    RCInv ⟨[some h0], fun x => if x = h0 then 1 else 0⟩ := by
  intro h
  simp only [liveOwners, List.countP_cons, List.countP_nil, decide_eq_true_eq,
    Option.some.injEq]
  by_cases hh : h = h0
  · subst hh
    simp
  · rw [if_neg hh, if_neg (Ne.symm hh)]

theorem foldl_count {α : Type} (l : List α) (n : Nat) :
    l.foldl (fun acc _ => acc + 1) n = n + l.length := by
  induction l generalizing n with
  | nil => simp
  | cons x xs ih => simp [List.foldl, ih]; omega

/-! ## Claim theorems -/

/-- C1: For every 1D, 2D, or 3D global extent and every kernel body `f`
launched via the basic-kernel path, the body is invoked only for work items
whose coordinate is strictly less than the extent in every dimension; any
invocation whose coordinate is out of range in any dimension performs no work
(`basicCUDAKernel` checks `getId < getRange` per dimension before calling
`f`). -/
theorem basicCUDAKernel_guard :
    (∀ (σ : Type) (g : Nat) (f : Nat → σ → σ) (id : Nat) (s : σ),
      (id < g → basicCUDAKernel1 g f id s = f id s) ∧
      (¬ id < g → basicCUDAKernel1 g f id s = s)) ∧
    (∀ (σ : Type) (g id : Nat × Nat) (f : Nat × Nat → σ → σ) (s : σ),
      (id.1 < g.1 ∧ id.2 < g.2 → basicCUDAKernel2 g f id s = f id s) ∧
      (¬ (id.1 < g.1 ∧ id.2 < g.2) → basicCUDAKernel2 g f id s = s)) ∧
    (∀ (σ : Type) (g id : Nat × Nat × Nat) (f : Nat × Nat × Nat → σ → σ)
        (s : σ),
      (id.1 < g.1 ∧ id.2.1 < g.2.1 ∧ id.2.2 < g.2.2 →
        basicCUDAKernel3 g f id s = f id s) ∧
      (¬ (id.1 < g.1 ∧ id.2.1 < g.2.1 ∧ id.2.2 < g.2.2) →
        basicCUDAKernel3 g f id s = s)) := by
  refine ⟨fun σ g f id s => ⟨fun h => ?_, fun h => ?_⟩,
    fun σ g id f s => ⟨fun h => ?_, fun h => ?_⟩,
    fun σ g id f s => ⟨fun h => ?_, fun h => ?_⟩⟩ <;>
  simp [basicCUDAKernel1, basicCUDAKernel2, basicCUDAKernel3, h]

/-- Witness for C1: with extent 4, the body runs at coordinate 2 and does
nothing at coordinate 7. -/
theorem basicCUDAKernel_guard_witness :
    basicCUDAKernel1 4 (fun i s => i :: s) 2 [] = [2] ∧
    basicCUDAKernel1 4 (fun i s => i :: s) 7 [] = [] :=
  ⟨(basicCUDAKernel_guard.1 (List Nat) 4 (fun i s => i :: s) 2 []).1
      (by decide),
   (basicCUDAKernel_guard.1 (List Nat) 4 (fun i s => i :: s) 7 []).2
      (by decide)⟩

/-- C7: the backend group-size heuristic returns 256 for 1D, 16×16 for 2D and
1×16×16 for 3D, for every global extent: its result never depends on the
extent's value. -/
theorem suggestWorkGroupSize_constants :
    (∀ g : Nat, suggestWorkGroupSize1 g = 256) ∧
    (∀ g : Nat × Nat, suggestWorkGroupSize2 g = (16, 16)) ∧
    (∀ g : Nat × Nat × Nat, suggestWorkGroupSize3 g = (1, 16, 16)) ∧
    (∀ g g' : Nat, suggestWorkGroupSize1 g = suggestWorkGroupSize1 g') ∧
    (∀ g g' : Nat × Nat, suggestWorkGroupSize2 g = suggestWorkGroupSize2 g') ∧
    (∀ g g' : Nat × Nat × Nat,
      suggestWorkGroupSize3 g = suggestWorkGroupSize3 g') :=
  ⟨fun _ => rfl, fun _ => rfl, fun _ => rfl,
   fun _ _ => rfl, fun _ _ => rfl, fun _ _ => rfl⟩

/-- C2: for every 1D/2D/3D global extent, the partition of `runKernelAsync`
(`numGroups = ceil_div(globalSize, groupSize)`, `groupSize` from
`suggestWorkGroupSize`) over-provisions in every dimension
(`numGroups * groupSize ≥ globalSize`), and per dimension every coordinate in
`[0, extent)` is visited by exactly one launched (group, local) pair: no gaps
and no duplicates. -/
theorem runKernelAsync_partition_covers :
    ∀ (g1 : Nat) (g2 : Nat × Nat) (g3 : Nat × Nat × Nat),
      g1 ≤ numGroups1 g1 * suggestWorkGroupSize1 g1 ∧
      dimCovered g1 (suggestWorkGroupSize1 g1) ∧
      (g2.1 ≤ (numGroups2 g2).1 * (suggestWorkGroupSize2 g2).1 ∧
       g2.2 ≤ (numGroups2 g2).2 * (suggestWorkGroupSize2 g2).2) ∧
      (dimCovered g2.1 (suggestWorkGroupSize2 g2).1 ∧
       dimCovered g2.2 (suggestWorkGroupSize2 g2).2) ∧
      (g3.1 ≤ (numGroups3 g3).1 * (suggestWorkGroupSize3 g3).1 ∧
       g3.2.1 ≤ (numGroups3 g3).2.1 * (suggestWorkGroupSize3 g3).2.1 ∧
       g3.2.2 ≤ (numGroups3 g3).2.2 * (suggestWorkGroupSize3 g3).2.2) ∧
      (dimCovered g3.1 (suggestWorkGroupSize3 g3).1 ∧
       dimCovered g3.2.1 (suggestWorkGroupSize3 g3).2.1 ∧
       dimCovered g3.2.2 (suggestWorkGroupSize3 g3).2.2) := by
  intro g1 g2 g3
  refine ⟨ceil_div_cover g1 256 (by decide),
    dimCovered_of_pos g1 256 (by decide),
    ⟨ceil_div_cover g2.1 16 (by decide), ceil_div_cover g2.2 16 (by decide)⟩,
    ⟨dimCovered_of_pos g2.1 16 (by decide),
     dimCovered_of_pos g2.2 16 (by decide)⟩,
    ⟨ceil_div_cover g3.1 1 (by decide), ceil_div_cover g3.2.1 16 (by decide),
     ceil_div_cover g3.2.2 16 (by decide)⟩,
    dimCovered_of_pos g3.1 1 (by decide),
    dimCovered_of_pos g3.2.1 16 (by decide),
    dimCovered_of_pos g3.2.2 16 (by decide)⟩

/-- Witness for C2: a concrete instance of the over-provisioning bound in
every dimension of a 1D/2D/3D launch. -/
theorem runKernelAsync_partition_covers_witness :
    1000 ≤ numGroups1 1000 * suggestWorkGroupSize1 1000 ∧
    33 ≤ (numGroups2 (33, 17)).1 * (suggestWorkGroupSize2 (33, 17)).1 ∧
    5 ≤ (numGroups3 (5, 33, 17)).1 * (suggestWorkGroupSize3 (5, 33, 17)).1 :=
  ⟨(runKernelAsync_partition_covers 1000 (33, 17) (5, 33, 17)).1,
   (runKernelAsync_partition_covers 1000 (33, 17) (5, 33, 17)).2.2.1.1,
   (runKernelAsync_partition_covers 1000 (33, 17) (5, 33, 17)).2.2.2.2.1.1⟩

/-- C3: the Device error state is a single slot holding the first unretrieved
error.  Recording a second error before the first is retrieved drops the
second; `getError` returns the first unqueried error and clears the slot; a
subsequent `getError` returns `None` until a new error occurs; and `getError`
works on a null Device, answering from the slot recording why construction
failed. -/
theorem device_error_slot_first_unretrieved :
    ∀ (c1 c2 c3 : Error) (m1 m2 m3 : String) (cg : Error) (mg : String),
      setErrorState (setErrorState ⟨none⟩ c1 m1) c2 m2 = ⟨some (c1, m1)⟩ ∧
      getErrorState (setErrorState (setErrorState ⟨none⟩ c1 m1) c2 m2) =
        ((c1, some m1), ⟨none⟩) ∧
      getErrorState
          (getErrorState (setErrorState (setErrorState ⟨none⟩ c1 m1) c2 m2)).2
        = ((Error.None, none), ⟨none⟩) ∧
      getErrorState
          (setErrorState
            (getErrorState
              (setErrorState (setErrorState ⟨none⟩ c1 m1) c2 m2)).2 c3 m3) =
        ((c3, some m3), ⟨none⟩) ∧
      DeviceRef.getError none ⟨some (cg, mg)⟩ = (cg, none, ⟨none⟩) ∧
      DeviceRef.getError none ⟨none⟩ = (Error.None, none, ⟨none⟩) := by
  intro c1 c2 c3 m1 m2 m3 cg mg
  refine ⟨rfl, rfl, rfl, rfl, rfl, rfl⟩

/-- C6: a backend dispatch failure is detected at enqueue time — right after
the launch, `runKernelAsync` checks the status via
`checkError(cudaGetLastError())` — and is converted into a Device-level error
of kind `Unknown` or `OutOfMemory` (`OutOfMemory` exactly for the allocation
failure), recorded in the Device's error slot rather than thrown, and
retrievable through the Device's error accessor. -/
theorem runKernelAsync_dispatch_failure_recorded :
    ∀ (e : CudaError) (d : ErrorState),
      e ≠ CudaError.success → d.slot = none →
      ∃ code msg,
        (runKernelAsyncErrorStatus e d).slot = some (code, msg) ∧
        (code = Error.Unknown ∨ code = Error.OutOfMemory) ∧
        (e = CudaError.memoryAllocation ↔ code = Error.OutOfMemory) ∧
        getErrorState (runKernelAsyncErrorStatus e d) =
          ((code, some msg), ⟨none⟩) := by
  intro e d he hd
  cases e with
  | success => exact absurd rfl he
  | memoryAllocation =>
    refine ⟨Error.OutOfMemory, "out of memory", ?_, Or.inr rfl, by simp, ?_⟩ <;>
      simp [runKernelAsyncErrorStatus, checkError, setErrorState, hd,
        getErrorState]
  | other =>
    refine ⟨Error.Unknown, "unknown error", ?_, Or.inl rfl, by simp, ?_⟩ <;>
      simp [runKernelAsyncErrorStatus, checkError, setErrorState, hd,
        getErrorState]

/-- Witness for C6: an out-of-resources launch on a device with an empty
error slot records `OutOfMemory` and the accessor retrieves it. -/
theorem runKernelAsync_dispatch_failure_recorded_witness :
    ∃ code msg,
      (runKernelAsyncErrorStatus CudaError.memoryAllocation ⟨none⟩).slot =
        some (code, msg) ∧
      (code = Error.Unknown ∨ code = Error.OutOfMemory) ∧
      (CudaError.memoryAllocation = CudaError.memoryAllocation ↔
        code = Error.OutOfMemory) ∧
      getErrorState (runKernelAsyncErrorStatus CudaError.memoryAllocation
        ⟨none⟩) = ((code, some msg), ⟨none⟩) :=
  runKernelAsync_dispatch_failure_recorded CudaError.memoryAllocation ⟨none⟩
    (by decide) rfl

/-- C8: the error surface is exactly the seven enumerated kinds, and the
error accessor optionally yields a human-readable message alongside the code:
the message-taking overload returns the same code as the code-only overload,
together with the stored message when an error is pending. -/
theorem error_surface_enumeration :
    (∀ e : Error,
      e = Error.None ∨ e = Error.Unknown ∨ e = Error.InvalidArgument ∨
      e = Error.InvalidOperation ∨ e = Error.OutOfMemory ∨
      e = Error.UnsupportedHardware ∨ e = Error.Cancelled) ∧
    (∀ (dev : Option ErrorState) (g : ErrorState),
      (DeviceRef.getError dev g).1 =
        (DeviceRef.getErrorWithMessage dev g).1.1) ∧
    (∀ (d : ErrorState) (c : Error) (m : String) (g : ErrorState),
      d.slot = some (c, m) →
      (DeviceRef.getErrorWithMessage (some d) g).1 = (c, some m)) := by
  refine ⟨fun e => ?_, fun dev g => rfl, fun d c m g hd => ?_⟩
  · cases e <;> simp
  · simp [DeviceRef.getErrorWithMessage, oidnGetDeviceError, getErrorState, hd]

/-- Witness for C8: a pending `OutOfMemory` with message is returned by the
message-taking accessor. -/
theorem error_surface_enumeration_witness :
    (DeviceRef.getErrorWithMessage (some ⟨some (Error.OutOfMemory, "oom")⟩)
      ⟨none⟩).1 = (Error.OutOfMemory, some "oom") :=
  error_surface_enumeration.2.2 ⟨some (Error.OutOfMemory, "oom")⟩
    Error.OutOfMemory "oom" ⟨none⟩ rfl

/-- C4: for every handle wrapper with a non-null handle, copy construction
invokes exactly one retain on the new handle, copy assignment exactly one
retain on the new handle and one release on the replaced handle, and
destruction exactly one release; consequently the reference count of every
handle stays equal to the number of live owning wrappers, so it reaches zero
exactly when the last owning wrapper is gone. -/
theorem refcounted_wrapper_balance :
    (∀ (h : Handle) (c : RefCounts),
      copyCtor (some h) c = (some h, oidnRetain c h, [RCEvent.retain h])) ∧
    (∀ (hOld hNew : Handle) (c : RefCounts),
      copyAssign (some hOld) (some hNew) false c =
        (some hNew, oidnRelease (oidnRetain c hNew) hOld,
         [RCEvent.retain hNew, RCEvent.release hOld])) ∧
    (∀ (h : Handle) (c : RefCounts),
      destructor (some h) c = (oidnRelease c h, [RCEvent.release h])) ∧
    (∀ (w : RefWorld) (op : WrapperOp), RCInv w → RCInv (stepW w op)) ∧
    (∀ (w : RefWorld), RCInv w →
      ∀ h : Handle, (w.counts h = 0 ↔ liveOwners w h = 0)) := by
  refine ⟨fun h c => rfl, fun hOld hNew c => rfl, fun h c => rfl,
    rcinv_step, fun w hw h => ?_⟩
  rw [hw h]

/-- Witness for C4: copying the single owner of handle 5 preserves the
count/owner balance, and a balanced world has count zero only with no
owner. -/
theorem refcounted_wrapper_balance_witness :
    RCInv (stepW ⟨[some 5], fun x => if x = 5 then 1 else 0⟩
      (WrapperOp.copy 0)) ∧
    ((fun x : Handle => if x = 5 then 1 else 0) 5 = 0 ↔
      liveOwners ⟨[some 5], fun x => if x = 5 then 1 else 0⟩ 5 = 0) :=
  ⟨refcounted_wrapper_balance.2.2.2.1 _ (WrapperOp.copy 0) (rcinv_singleton 5),
   refcounted_wrapper_balance.2.2.2.2 _ (rcinv_singleton 5) 5⟩

/-- C10: move construction transfers the handle without any retain or
release and nulls the moved-from wrapper; destroying the moved-from wrapper
performs no release; a move step leaves every reference count unchanged and
preserves the count/owner balance — no double release. -/
theorem move_ctor_no_refcount_traffic :
    (∀ (h : Option Handle) (c : RefCounts), moveCtor h c = ((h, none), c, [])) ∧
    (∀ c : RefCounts, destructor none c = (c, [])) ∧
    (∀ (w : RefWorld) (i : Nat),
      (stepW w (WrapperOp.move i)).counts = w.counts) ∧
    (∀ (w : RefWorld) (i : Nat), RCInv w →
      RCInv (stepW w (WrapperOp.move i))) := by
  refine ⟨fun h c => rfl, fun c => rfl, fun w i => ?_,
    fun w i hw => rcinv_step w (WrapperOp.move i) hw⟩
  cases hg : w.wrappers.get? i <;>
    (rw [List.get?_eq_getElem?] at hg; simp [stepW, hg])

/-- Witness for C10: moving out of the single owner of handle 7 keeps the
balance invariant. -/
theorem move_ctor_no_refcount_traffic_witness :
    RCInv (stepW ⟨[some 7], fun x => if x = 7 then 1 else 0⟩
      (WrapperOp.move 0)) :=
  move_ctor_no_refcount_traffic.2.2.2 _ 0 (rcinv_singleton 7)

/-- C9: the explicit-partition overload applies no out-of-range guard:
`groupCUDAKernel` invokes the body unconditionally for every launched work
item, the launch consists of exactly `numGroups * groupSize` items, every
(group, local) pair of the grid is among them, and a counting body is invoked
exactly `numGroups * groupSize` times. -/
theorem groupKernel_unguarded :
    (∀ (σ : Type) (f : Nat × Nat → σ → σ) (item : Nat × Nat) (s : σ),
      groupCUDAKernel f item s = f item s) ∧
    (∀ numGroups groupSize : Nat,
      (groupLaunchItems numGroups groupSize).length = numGroups * groupSize) ∧
    (∀ numGroups groupSize g l : Nat, g < numGroups → l < groupSize →
      (g, l) ∈ groupLaunchItems numGroups groupSize) ∧
    (∀ numGroups groupSize : Nat,
      runGroupKernelLaunch numGroups groupSize (fun _ n => n + 1) 0 =
        numGroups * groupSize) := by
  have hlen : ∀ numGroups groupSize : Nat,
      (groupLaunchItems numGroups groupSize).length =
        numGroups * groupSize := by
    intro nG gS
    rw [groupLaunchItems]
    induction nG with
    | zero => simp
    | succ n ih =>
      rw [List.range_succ, List.flatMap_append]
      simp [ih, Nat.succ_mul]
  refine ⟨fun σ f item s => rfl, hlen, fun nG gS g l hg hl => ?_,
    fun nG gS => ?_⟩
  · simp only [groupLaunchItems, List.mem_flatMap, List.mem_map,
      List.mem_range]
    exact ⟨g, hg, l, hl, rfl⟩
  · rw [runGroupKernelLaunch]
    have := foldl_count (groupLaunchItems nG gS) 0
    simp only [groupCUDAKernel]
    rw [this, hlen]
    omega

/-- Witness for C9: in a 4×8 explicit launch, item (2, 3) is launched and the
counting body runs 32 times. -/
theorem groupKernel_unguarded_witness :
    (2, 3) ∈ groupLaunchItems 4 8 ∧
    runGroupKernelLaunch 4 8 (fun _ n => n + 1) 0 = 32 :=
  ⟨groupKernel_unguarded.2.2.1 4 8 2 3 (by decide) (by decide),
   groupKernel_unguarded.2.2.2 4 8⟩

/-- C5: every Op variant of the fixed catalog is constructible through the
Device factory from a descriptor; the descriptor is immutable for the Op's
lifetime, and every variant supports both capabilities: `finalize` moves a
constructed Op to Finalized and `submit` moves it to Submitted, neither
touching the descriptor. -/
theorem op_catalog_factory_capabilities :
    ∀ (k : OpKind) (d : OpDesc),
      (Device.newOp k d).kind = k ∧
      (Device.newOp k d).desc = d ∧
      (Device.newOp k d).phase = OpPhase.Constructed ∧
      ((Device.newOp k d).finalize).desc = d ∧
      ((Device.newOp k d).finalize).kind = k ∧
      ((Device.newOp k d).finalize).phase = OpPhase.Finalized ∧
      ((Device.newOp k d).finalize.submit).desc = d ∧
      ((Device.newOp k d).finalize.submit).kind = k ∧
      ((Device.newOp k d).finalize.submit).phase = OpPhase.Submitted := by
  intro k d
  cases k <;>
    simp [Device.newOp, Op.finalize, Op.submit]

end Oidn
